import Mathlib

/-!
Verification of the pr-merge-scheduler core against its specification.

The JavaScript sources are shallowly embedded:
* `src/comment-handler.js` — `validateScheduleTime`, `COMMAND_REGEX`,
  `hasWritePermission`, `handleComment`;
* `src/utils.js` — `createComment`, `storeScheduleInfo`, `removeScheduleInfo`,
  `getScheduledPRs`;
* `src/merge-scheduler.js` — `mergePR`, `processScheduledMerges`.

Machine instants are `Int` milliseconds since the Unix epoch (the value of
`Date.prototype.getTime`).  External library calls (`date-fns-tz`
`zonedTimeToUtc`, `JSON.parse`, `new Date(string)`, `toISOString`, `format`)
are uninterpreted functions supplied through environment records; everything
the repository itself computes is translated concretely.
-/

deriving instance DecidableEq for Except

namespace MergeSched

/-! ## Character and list helpers -/

/-- One step of splitting a character list into maximal runs of
non-whitespace characters.  `acc` is the current token, reversed. -/
def wordsAux : List Char → List Char → List (List Char)
  | acc, [] => if acc.isEmpty then [] else [acc.reverse]
  | acc, c :: cs =>
    if c.isWhitespace then
      if acc.isEmpty then wordsAux [] cs else acc.reverse :: wordsAux [] cs
    else wordsAux (c :: acc) cs

/-- Models `str.trim().split(/\s+/)` from `validateScheduleTime`: the list of
maximal non-whitespace runs (JavaScript returns `[""]` on an all-whitespace
string where this returns `[]`; both fall into the same missing-token error
branch of the parser). -/
def words (cs : List Char) : List (List Char) := wordsAux [] cs

/-- Models `Array.prototype.join(' ')` on the time tokens. -/
def joinSp : List (List Char) → List Char
  | [] => []
  | [t] => t
  | t :: ts => t ++ ' ' :: joinSp ts

/-- Models `String.prototype.replace(/\s+/g, '')`. -/
def stripWs (cs : List Char) : List Char := cs.filter (fun c => !c.isWhitespace)

/-- Models `String.prototype.toUpperCase()` (per-character, ASCII). -/
def upper (cs : List Char) : List Char := cs.map Char.toUpper

/-- Models `String.prototype.includes(pat)`: `pat` occurs as a contiguous
substring of `hay`. -/
def hasSub (hay pat : List Char) : Bool :=
  match hay with
  | [] => pat.isEmpty
  | _ :: t => pat.isPrefixOf hay || hasSub t pat

/-! ## The time parser (`validateScheduleTime`, src/comment-handler.js 26-94) -/

/-- Numeric value of a decimal digit character (`parseInt` on one digit). -/
def digitVal (c : Char) : Nat := c.toNat - 48

/-- The decimal digit character for `n ≤ 9`. -/
def digitChar (n : Nat) : Char := Char.ofNat (48 + n)

/-- Models `n.toString().padStart(2, '0')` for the hour and minute values of
the parser, which are always below 100 (they come from at most two digits). -/
def pad2 (n : Nat) : String := String.mk [digitChar (n / 10), digitChar (n % 10)]

/-- The `HH:mm` string the parser hands to `zonedTimeToUtc`. -/
def hmString (h m : Nat) : String := pad2 h ++ ":" ++ pad2 m

/-- The optional meridiem suffix of the normalized time token: `none` for no
marker, `some isPM` otherwise (the token is already upper-cased). -/
def meridiemOf : List Char → Option (Option Bool)
  | [] => some none
  | ['A', 'M'] => some (some false)
  | ['P', 'M'] => some (some true)
  | _ => none

/-- Models `timeStr.match(/^(\d{1,2}):(\d{2})(AM|PM)?$/i)` on the normalized
(whitespace-stripped, upper-cased) time token, returning the numeric hour,
the numeric minute and the meridiem marker.  The greedy `\d{1,2}` either
takes two digits when the colon follows them, or backtracks to one digit. -/
def matchTime (s : List Char) : Option (Nat × Nat × Option Bool) :=
  match s with
  | c₁ :: c₂ :: c₃ :: c₄ :: rest =>
    if c₂ = ':' then
      if c₁.isDigit ∧ c₃.isDigit ∧ c₄.isDigit then
        (meridiemOf rest).map (fun mer => (digitVal c₁, 10 * digitVal c₃ + digitVal c₄, mer))
      else none
    else if c₃ = ':' then
      match rest with
      | c₅ :: rest' =>
        if c₁.isDigit ∧ c₂.isDigit ∧ c₄.isDigit ∧ c₅.isDigit then
          (meridiemOf rest').map
            (fun mer => (10 * digitVal c₁ + digitVal c₂, 10 * digitVal c₄ + digitVal c₅, mer))
        else none
      | [] => none
    else none
  | _ => none

/-- Converts a validated 12-hour hour to 24-hour form, exactly as the
meridiem branch of `validateScheduleTime` does: 12 AM becomes 0, 12 PM stays
12, other PM hours gain 12, other AM hours are unchanged. -/
def to24 (h : Nat) (isPM : Bool) : Nat :=
  if isPM ∧ h ≠ 12 then h + 12
  else if ¬isPM ∧ h = 12 then 0
  else h

/-- The pure part of `validateScheduleTime` before any library call: split
into date and time tokens, normalize and match the time, range-check it, and
produce the `"<datePart> <HH:mm>"` wall-clock string handed to
`zonedTimeToUtc`.  Each failure carries the reason raised by the code. -/
def parseWallClock (dateStr : String) : Except String String :=
  match words dateStr.data with
  | datePart :: t :: ts =>
    let timeStr := upper (stripWs (joinSp (t :: ts)))
    match matchTime timeStr with
    | none => .error "Invalid time format"
    | some (h, m, mer) =>
      match mer with
      | some isPM =>
        if h < 1 ∨ 12 < h ∨ 59 < m then .error "Invalid time format"
        else .ok (String.mk datePart ++ " " ++ hmString (to24 h isPM) m)
      | none =>
        if 23 < h ∨ 59 < m then .error "Invalid time format"
        else .ok (String.mk datePart ++ " " ++ hmString h m)
  | _ => .error "Date and time must be provided"

/-- The external world of the comment handler: `zonedTimeToUtc` (returning
`none` for an invalid wall-clock date or unrecognized timezone, which the
code observes through `isValid`), the current instant `new Date()`, and the
display formatters `toISOString` / `format(utcToZonedTime(..))` /
`format(.., 'yyyy-MM-dd HH:mm')`. -/
structure Env where
  zonedTimeToUtc : String → String → Option Int
  now : Int
  isoOf : Int → String
  fmtLocal : Int → String → String
  fmtUtc : Int → String

/-- Milliseconds in the 30-day scheduling window (`addDays(now, 30)`). -/
def thirtyDaysMs : Int := 30 * 86400000

/-- The resolution phase of `validateScheduleTime`: wall-clock string via
`parseWallClock`, then `zonedTimeToUtc` plus the `isValid` check. -/
def resolveInstant (env : Env) (dateStr tz : String) : Except String Int :=
  match parseWallClock dateStr with
  | .error e => .error e
  | .ok wall =>
    match env.zonedTimeToUtc wall tz with
    | none => .error "Invalid date format"
    | some d => .ok d

/-- `validateScheduleTime` before the wrapping catch: resolution followed by
the future-only and 30-day-window business rules. -/
def validateScheduleTimeCore (env : Env) (dateStr tz : String) : Except String Int :=
  match resolveInstant env dateStr tz with
  | .error e => .error e
  | .ok d =>
    if d ≤ env.now then .error "Scheduled time must be in the future"
    else if env.now + thirtyDaysMs < d then .error "Cannot schedule more than 30 days in advance"
    else .ok d

/-- `validateScheduleTime(dateStr, timezone)`: every failure reason is
re-thrown with the `"Invalid date/time format: "` prefix. -/
def validateScheduleTime (env : Env) (dateStr tz : String) : Except String Int :=
  match validateScheduleTimeCore env dateStr tz with
  | .error e => .error ("Invalid date/time format: " ++ e)
  | .ok d => .ok d

/-! ## The command pattern (`COMMAND_REGEX`, src/comment-handler.js line 7)

`/@merge-at\s+(\d{4}-\d{2}-\d{2}\s+\d{1,2}:\d{2}(?:\s*(?:AM|PM|am|pm))?)\s*([\w\/]+)?/`

The pattern has no `i` flag: the optional meridiem alternation accepts only
the uniform spellings `AM`, `PM`, `am`, `pm`.  The matcher below follows the
engine's greedy-with-backtracking behaviour, which is deterministic for this
pattern: each `\s+`/`\s*` consumes a maximal whitespace run (no later part of
the pattern can begin with whitespace), `\d{1,2}` prefers two digits and
backtracks to one only when the colon follows the first digit, and the
optional groups match greedily or not at all. -/

/-- Match a literal character sequence, returning the remainder. -/
def litP : List Char → List Char → Option (List Char)
  | [], s => some s
  | _ :: _, [] => none
  | p :: ps, c :: cs => if c = p then litP ps cs else none

/-- `\s+`: at least one whitespace character, consumed maximally; returns
the consumed run and the remainder. -/
def wsPlus : List Char → Option (List Char × List Char)
  | [] => none
  | c :: cs =>
    if c.isWhitespace then
      some (c :: cs.takeWhile Char.isWhitespace, cs.dropWhile Char.isWhitespace)
    else none

/-- `\d{n}`: exactly `n` digits; returns the digits and the remainder. -/
def digitN : Nat → List Char → Option (List Char × List Char)
  | 0, s => some ([], s)
  | _ + 1, [] => none
  | n + 1, c :: cs =>
    if c.isDigit then (digitN n cs).map (fun r => (c :: r.1, r.2)) else none

/-- `\d{1,2}:`: the greedy one-or-two-digit hour followed by the colon;
returns the hour digits and the remainder after the colon. -/
def hourColon (s : List Char) : Option (List Char × List Char) :=
  match s with
  | c₁ :: c₂ :: c₃ :: rest =>
    if c₁.isDigit ∧ c₂.isDigit ∧ c₃ = ':' then some ([c₁, c₂], rest)
    else if c₁.isDigit ∧ c₂ = ':' then some ([c₁], c₃ :: rest)
    else none
  | [c₁, c₂] => if c₁.isDigit ∧ c₂ = ':' then some ([c₁], []) else none
  | _ => none

/-- `(?:\s*(?:AM|PM|am|pm))?`: optional whitespace run followed by one of the
four exact meridiem spellings; matches empty when none follows.  Returns the
consumed characters (part of capture group 1) and the remainder. -/
def merGroup (s : List Char) : List Char × List Char :=
  let w := s.takeWhile Char.isWhitespace
  match s.dropWhile Char.isWhitespace with
  | 'A' :: 'M' :: rest => (w ++ ['A', 'M'], rest)
  | 'P' :: 'M' :: rest => (w ++ ['P', 'M'], rest)
  | 'a' :: 'm' :: rest => (w ++ ['a', 'm'], rest)
  | 'p' :: 'm' :: rest => (w ++ ['p', 'm'], rest)
  | _ => ([], s)

/-- A character of the class `[\w/]`. -/
def isWordChar (c : Char) : Bool := c.isAlphanum || c = '_' || c = '/'

/-- `([\w/]+)?`: the optional timezone capture group. -/
def tzGroup (s : List Char) : Option String :=
  let t := s.takeWhile isWordChar
  if t.isEmpty then none else some (String.mk t)

/-- The literal `@merge-at` that opens `COMMAND_REGEX`. -/
def atMergeAt : List Char := ['@', 'm', 'e', 'r', 'g', 'e', '-', 'a', 't']

/-- Attempt `COMMAND_REGEX` at the start of `s`, returning capture group 1
(the date/time expression) and capture group 2 (the timezone token). -/
def matchAt (s : List Char) : Option (String × Option String) := do
  let r1 ← litP atMergeAt s
  let (_, r2) ← wsPlus r1
  let (yd, r3) ← digitN 4 r2
  let r4 ← litP ['-'] r3
  let (mo, r5) ← digitN 2 r4
  let r6 ← litP ['-'] r5
  let (dd, r7) ← digitN 2 r6
  let (w2, r8) ← wsPlus r7
  let (hh, r9) ← hourColon r8
  let (mi, r10) ← digitN 2 r9
  let (mer, r11) := merGroup r10
  let r12 := r11.dropWhile Char.isWhitespace
  some (String.mk (yd ++ '-' :: mo ++ '-' :: dd ++ w2 ++ hh ++ ':' :: mi ++ mer), tzGroup r12)

/-- `COMMAND_REGEX.exec(body)`: the leftmost match. -/
def execCommand : List Char → Option (String × Option String)
  | [] => none
  | c :: cs =>
    match matchAt (c :: cs) with
    | some r => some r
    | none => execCommand cs

/-- `CANCEL_COMMAND` (src/comment-handler.js line 8). -/
def CANCEL_COMMAND : String := "@merge-at cancel"

/-- `SCHEDULE_LABEL` (src/utils.js line 3). -/
def SCHEDULE_LABEL : String := "merge-scheduled"

/-! ## Repository-host state and the comment handler
(`handleComment`, src/comment-handler.js 96-170, with the store adapter
`createComment` / `storeScheduleInfo` / `removeScheduleInfo` of src/utils.js)

The handler touches a single pull request; its externally visible state is
the list of issue comments and the list of labels.  Each host operation
either succeeds or fails; a failed operation rejects with a message, which
the code observes through `catch` blocks.  The `World` record fixes the
outcome of each kind of host call; thrown errors carry the `PRState` at the
moment of the throw together with the error message. -/

structure IssueComment where
  id : Nat
  body : String
deriving DecidableEq

structure PRState where
  comments : List IssueComment
  labels : List String
  nextId : Nat
deriving DecidableEq

/-- Outcome of `octokit.rest.issues.removeLabel`: success, a 404 (label not
on the PR), or another failure. -/
inductive LabelRemoveRes where
  | ok
  | notFound
  | fail (msg : String)
deriving DecidableEq

/-- Fixed outcomes of the repository-host calls made by `handleComment`,
plus the initial PR state and the time environment. -/
structure World where
  pr : PRState
  author : Except String String
  perm : Except String String
  addLabelErr : Option String
  removeLabelRes : LabelRemoveRes
  listCommentsErr : Option String
  deleteCommentErr : Option String
  createCommentErr : Option String
  env : Env

/-- The generic failure comment posted by `handleComment`'s outer catch. -/
def GENERIC_ERROR : String :=
  "❌ An error occurred while processing your command. Please try again."

/-- `createComment` (src/utils.js 6-19): posts a comment, re-throwing any
host failure. -/
def createComment (w : World) (st : PRState) (body : String) :
    Except (PRState × String) PRState :=
  match w.createCommentErr with
  | some m => .error (st, m)
  | none =>
    .ok { st with
          comments := st.comments ++ [{ id := st.nextId, body := body }],
          nextId := st.nextId + 1 }

/-- The marker text that identifies a schedule comment. -/
def MARKER : String := "MERGE_SCHEDULE_INFO"

/-- Whether a comment is a schedule marker comment
(`comment.body.includes('MERGE_SCHEDULE_INFO')`). -/
def markerOf (c : IssueComment) : Bool := hasSub c.body.data MARKER.data

/-- The deletion loop of `removeScheduleInfo`: delete each listed comment id
in order, re-throwing the first failure. -/
def deleteComments (w : World) (st : PRState) : List Nat → Except (PRState × String) PRState
  | [] => .ok st
  | i :: rest =>
    match w.deleteCommentErr with
    | some m => .error (st, m)
    | none =>
      deleteComments w { st with comments := st.comments.filter (fun c => c.id ≠ i) } rest

/-- `removeScheduleInfo` (src/utils.js 69-108): remove the schedule label
(ignoring a 404), list the comments, and delete every marker comment. -/
def removeScheduleInfo (w : World) (st : PRState) : Except (PRState × String) PRState :=
  match w.removeLabelRes with
  | .fail m => .error (st, m)
  | _ =>
    let st1 := { st with labels := st.labels.filter (fun l => l ≠ SCHEDULE_LABEL) }
    match w.listCommentsErr with
    | some m => .error (st1, m)
    | none =>
      deleteComments w st1 ((st1.comments.filter markerOf).map (fun c => c.id))

/-- The confirmation comment `storeScheduleInfo` posts: the hidden
machine-readable marker followed by the human-readable schedule text. -/
def markerBody (isoStr localTime utcTime tz : String) : String :=
  "<!-- MERGE_SCHEDULE_INFO \x7b\"type\":\"merge-schedule-info\",\"scheduleDate\":\""
    ++ isoStr ++ "\"\x7d -->\n\n📅 PR merge scheduled for:\n• "
    ++ localTime ++ " " ++ tz ++ "\n• " ++ utcTime
    ++ " UTC\n\nI\x27ll merge this PR at the scheduled time if it\x27s mergeable.\nTo cancel, comment: @merge-at cancel"

/-- `storeScheduleInfo` (src/utils.js 38-67): add the schedule label, then
post the marker comment. -/
def storeScheduleInfo (w : World) (st : PRState) (instant : Int)
    (localTime utcTime tz : String) : Except (PRState × String) PRState :=
  match w.addLabelErr with
  | some m => .error (st, m)
  | none =>
    let st1 := { st with
                 labels := if SCHEDULE_LABEL ∈ st.labels then st.labels
                           else st.labels ++ [SCHEDULE_LABEL] }
    createComment w st1 (markerBody (w.env.isoOf instant) localTime utcTime tz)

/-- `hasWritePermission` (src/comment-handler.js 10-24): `admin` or `write`
passes; a failed permission lookup counts as no access. -/
def hasWritePermission (w : World) : Bool :=
  match w.perm with
  | .error _ => false
  | .ok p => p = "admin" || p = "write"

/-- The body of `handleComment`'s outer `try` (src/comment-handler.js
100-163): author lookup, permission check, cancel command, schedule-command
match, parse, then remove-and-store; the inner `try` turns a parse,
removal or storage failure into a posted `"❌ <message>"` comment. -/
def handleCommentBody (w : World) (commentBody : String) :
    Except (PRState × String) PRState :=
  let st := w.pr
  match w.author with
  | .error m => .error (st, m)
  | .ok _ =>
    if !hasWritePermission w then
      createComment w st "❌ Only users with write permission can schedule PR merges."
    else if hasSub commentBody.data CANCEL_COMMAND.data then
      match removeScheduleInfo w st with
      | .error e => .error e
      | .ok st1 => createComment w st1 "🚫 Scheduled merge has been cancelled."
    else
      match execCommand commentBody.data with
      | none =>
        createComment w st
          "❌ Invalid command format. Please use: @merge-at YYYY-MM-DD HH:mm[am|pm] [timezone]"
      | some (dateTimeStr, tzOpt) =>
        let timezone := tzOpt.getD "UTC"
        match validateScheduleTime w.env dateTimeStr timezone with
        | .error msg => createComment w st ("❌ " ++ msg)
        | .ok d =>
          let localTime := w.env.fmtLocal d timezone
          let utcTime := w.env.fmtUtc d
          match removeScheduleInfo w st with
          | .error (st1, m) => createComment w st1 ("❌ " ++ m)
          | .ok st1 =>
            match storeScheduleInfo w st1 d localTime utcTime timezone with
            | .error (st2, m) => createComment w st2 ("❌ " ++ m)
            | .ok st2 => .ok st2

/-- `handleComment` (src/comment-handler.js 96-170): the outer `catch` posts
the generic failure comment; if that post itself fails, the rejection
propagates to the caller. -/
def handleComment (w : World) (commentBody : String) :
    Except (PRState × String) PRState :=
  match handleCommentBody w commentBody with
  | .ok st => .ok st
  | .error (st, _) => createComment w st GENERIC_ERROR

/-! ## Discovery (`getScheduledPRs`, src/utils.js 110-182) -/

/-- A search hit of `is:pr is:open label:merge-scheduled`; `repoUrl = none`
models a missing or non-string `repository_url`. -/
structure SearchItem where
  number : Nat
  repoUrl : Option String
deriving DecidableEq

/-- A discovered scheduled PR. -/
structure SchedPR where
  owner : String
  repo : String
  number : Nat
  scheduleTime : Int
deriving DecidableEq

/-- External calls of discovery: per-PR comment listing, `JSON.parse`
(`none` = throws; `some none` = parses but `scheduleDate` is not a string)
and `new Date(string)` (`none` = invalid date, `NaN` time). -/
structure DiscoveryEnv where
  listComments : String → String → Nat → Except String (List String)
  jsonParse : String → Option (Option String)
  dateParse : String → Option Int

/-- Attempt `/MERGE_SCHEDULE_INFO (.+) -->/` at the start of `s`: the
literal, then a greedy non-newline run ending before the last ` -->` of the
line, requiring at least one payload character. -/
def payloadAt (s : List Char) : Option (List Char) :=
  match litP (MARKER ++ " ").data s with
  | none => none
  | some r =>
    let line := r.takeWhile (fun c => c ≠ '\n')
    match ((List.range line.length).filter
        (fun i => decide (1 ≤ i) && " -->".data.isPrefixOf (line.drop i))).getLast? with
    | none => none
    | some i => some (line.take i)

/-- `body.match(/MERGE_SCHEDULE_INFO (.+) -->/)`: leftmost match, returning
capture group 1. -/
def extractPayload : List Char → Option (List Char)
  | [] => none
  | c :: cs =>
    match payloadAt (c :: cs) with
    | some p => some p
    | none => extractPayload cs

/-- Models `String.prototype.split('/')`: maximal runs between slashes,
with empty runs kept (`"a//b"` gives `["a", "", "b"]`, `""` gives `[""]`). -/
def splitSlash : List Char → List (List Char)
  | [] => [[]]
  | c :: cs =>
    if c = '/' then [] :: splitSlash cs
    else
      match splitSlash cs with
      | t :: ts => (c :: t) :: ts
      | [] => [[c]]

/-- The inner `try` of `getScheduledPRs` (src/utils.js 137-158): match the
marker payload, `JSON.parse` it, read `scheduleDate`, validate the date; any
throw is caught and the item is skipped. -/
def markerTry (env : DiscoveryEnv) (owner repo : String) (n : Nat) (body : String) :
    Option SchedPR :=
  match extractPayload body.data with
  | none => none
  | some payload =>
    match env.jsonParse (String.mk payload) with
    | none => none
    | some none => none
    | some (some s) =>
      match env.dateParse s with
      | none => none
      | some t => some { owner := owner, repo := repo, number := n, scheduleTime := t }

/-- The per-item `try` of `getScheduledPRs` (src/utils.js 120-162):
repository-reference checks, comment listing (whose failure throws to the
per-item catch), marker lookup, then `markerTry`.  `.ok none` is an explicit
skip; `.error` is a thrown host failure. -/
def itemTry (env : DiscoveryEnv) (item : SearchItem) : Except String (Option SchedPR) :=
  match item.repoUrl with
  | none => .ok none
  | some url =>
    if url.data.isEmpty then .ok none
    else
      let parts := splitSlash url.data
      if parts.length < 2 then .ok none
      else
        match parts.reverse with
        | repo :: owner :: _ =>
          match env.listComments (String.mk owner) (String.mk repo) item.number with
          | .error e => .error e
          | .ok bodies =>
            match bodies.find? (fun b => hasSub b.data MARKER.data) with
            | none => .ok none
            | some body => .ok (markerTry env (String.mk owner) (String.mk repo) item.number body)
        | _ => .ok none

/-- One search item with the per-item `catch`: a thrown failure is logged
and the item skipped. -/
def itemStep (env : DiscoveryEnv) (item : SearchItem) : Option SchedPR :=
  match itemTry env item with
  | .error _ => none
  | .ok r => r

/-- The accumulation loop of `getScheduledPRs`. -/
def discoveryLoop (env : DiscoveryEnv) : List SearchItem → List SchedPR
  | [] => []
  | item :: rest =>
    match itemStep env item with
    | some pr => pr :: discoveryLoop env rest
    | none => discoveryLoop env rest

/-- `getScheduledPRs` (src/utils.js 110-182): a search failure re-throws;
otherwise every item is processed and the per-item failures are contained. -/
def getScheduledPRs (env : DiscoveryEnv) (searchRes : Except String (List SearchItem)) :
    Except String (List SchedPR) :=
  match searchRes with
  | .error e => .error e
  | .ok items => .ok (discoveryLoop env items)

/-! ## Merge attempt (`mergePR`, src/merge-scheduler.js 5-77)

Comment posting inside `mergePR` is modelled as always succeeding (the
claims under verification do not inject failures there); the fetch, the
merge call and the post-merge cleanup each succeed or reject.  A rejection
carries the host status (`none` models a plain `Error` without `status`)
and the error message. -/

structure MergeWorld where
  pullGet : Except (Option Nat × String) Bool
  pullMerge : Except (Option Nat × String) Unit
  removeInfoRes : Except String Unit

/-- The inner fetch `try` (src/merge-scheduler.js 8-23): fetch mergeability;
a non-mergeable PR posts the failure comment and throws a plain `Error`.
Errors carry the comments posted so far, the status and the message. -/
def fetchTry (w : MergeWorld) : Except (List String × Option Nat × String) (List String) :=
  match w.pullGet with
  | .error (status, msg) => .error ([], status, msg)
  | .ok mergeable =>
    if !mergeable then
      .error (["❌ Failed to merge PR: PR is not mergeable. There might be conflicts."],
              none, "PR is not mergeable. There might be conflicts.")
    else .ok []

/-- The fetch stage with its `catch` (src/merge-scheduler.js 24-32): a 404
posts the not-found comment and throws the not-found error; anything else
re-throws. -/
def fetchStage (w : MergeWorld) : Except (List String × String) (List String) :=
  match fetchTry w with
  | .ok posts => .ok posts
  | .error (posts, status, msg) =>
    if status = some 404 then
      .error (posts ++
        ["❌ Failed to merge PR: PR not found or you may not have permission to merge."],
        "PR not found or you may not have permission to merge.")
    else .error (posts, msg)

/-- The body of `mergePR`'s outer `try` (src/merge-scheduler.js 6-67): the
fetch stage, then the merge attempt; a merge failure is classified by
status, posted, and re-thrown as `Error(errorMessage)`; success posts the
confirmation and clears the schedule state. -/
def mergeBody (w : MergeWorld) : Except (List String × String) (List String) :=
  match fetchStage w with
  | .error e => .error e
  | .ok posts =>
    match w.pullMerge with
    | .ok _ =>
      let posts1 := posts ++ ["✅ Successfully merged as scheduled!"]
      match w.removeInfoRes with
      | .ok _ => .ok posts1
      | .error m => .error (posts1, m)
    | .error (status, msg) =>
      let errorMessage := "Failed to merge PR: " ++
        (if status = some 405 then
          "PR is not mergeable at this time. Please resolve any conflicts or check branch protection rules."
         else if status = some 404 then
          "PR not found or you may not have permission to merge."
         else if msg.isEmpty then "An unexpected error occurred." else msg)
      .error (posts ++ ["❌ " ++ errorMessage], errorMessage)

/-- `mergePR` (src/merge-scheduler.js 5-77): the outer `catch` posts
`"❌ Failed to merge PR: <message>"` once more whenever the thrown message
does not already contain `'Failed to merge PR'`, then re-throws.  Returns
the comments posted to the PR thread, in order, and the outcome. -/
def mergePR (w : MergeWorld) : List String × Except String Unit :=
  match mergeBody w with
  | .ok posts => (posts, .ok ())
  | .error (posts, msg) =>
    if hasSub msg.data "Failed to merge PR".data then (posts, .error msg)
    else (posts ++ ["❌ Failed to merge PR: " ++ msg], .error msg)

/-! ## The sweep (`processScheduledMerges`, src/merge-scheduler.js 79-128) -/

/-- The sweep loop (src/merge-scheduler.js 89-120): a due candidate
(`scheduleTime <= now`) gets a merge attempt whose failure is caught and
logged; a future candidate is skipped with no side effect.  Returns the
candidates for which a merge was attempted, in order. -/
def sweepLoop (now : Int) (mergeRes : SchedPR → Except String Unit) :
    List SchedPR → List SchedPR
  | [] => []
  | pr :: rest =>
    if pr.scheduleTime ≤ now then
      match mergeRes pr with
      | .ok _ => pr :: sweepLoop now mergeRes rest
      | .error _ => pr :: sweepLoop now mergeRes rest
    else sweepLoop now mergeRes rest

/-- `processScheduledMerges` (src/merge-scheduler.js 79-128): a listing
failure re-throws; otherwise the sweep loop runs to completion and the call
resolves. -/
def processScheduledMerges (listRes : Except String (List SchedPR)) (now : Int)
    (mergeRes : SchedPR → Except String Unit) : Except String (List SchedPR) :=
  match listRes with
  | .error e => .error e
  | .ok prs => .ok (sweepLoop now mergeRes prs)

/-! ## Sample environments for concrete evaluation -/

/-- A concrete `zonedTimeToUtc`: the real values of the zones and wall-clock
strings used in the witnesses (`2024-01-02T14:30:00Z` is `1704205800000`;
`America/New_York` is UTC-5 on that date); every other input, including
non-IANA timezone tokens such as `"Pm"`, is invalid. -/
def sampleZtu : String → String → Option Int := fun s tz =>
  if tz = "UTC" then
    if s = "2024-01-02 14:30" then some 1704205800000
    else if s = "2024-01-02 00:00" then some 1704153600000
    else none
  else if tz = "America/New_York" then
    if s = "2024-01-02 14:30" then some 1704223800000
    else none
  else none

/-- A concrete environment: `now` is `2024-01-01T12:00:00Z`. -/
def sampleEnv : Env :=
  { zonedTimeToUtc := sampleZtu
    now := 1704110400000
    isoOf := fun _ => "2024-01-02T14:30:00.000Z"
    fmtLocal := fun _ _ => "2024-01-02 02:30 PM"
    fmtUtc := fun _ => "2024-01-02 14:30" }

/-- A world where every host call succeeds: the PR starts with two stale
marker comments, an unrelated comment, the schedule label and another
label; the author has write permission. -/
def sampleWorld : World :=
  { pr :=
      { comments :=
          [ { id := 1, body := markerBody "2023-12-30T10:00:00.000Z" "a" "b" "UTC" }
          , { id := 2, body := "just a remark" }
          , { id := 3, body := markerBody "2023-12-31T10:00:00.000Z" "c" "d" "UTC" } ]
        labels := ["merge-scheduled", "bug"]
        nextId := 4 }
    author := .ok "alice"
    perm := .ok "write"
    addLabelErr := none
    removeLabelRes := .ok
    listCommentsErr := none
    deleteCommentErr := none
    createCommentErr := none
    env := sampleEnv }

/-- A world where the author lookup fails and comment creation also fails:
the outer catch cannot post its generic message. -/
def brokenWorld : World :=
  { pr := { comments := [], labels := [], nextId := 0 }
    author := .error "API Error"
    perm := .ok "write"
    addLabelErr := none
    removeLabelRes := .ok
    listCommentsErr := none
    deleteCommentErr := none
    createCommentErr := some "comment API down"
    env := sampleEnv }

/-- `brokenWorld` with comment creation restored: the author lookup still
fails, so the outer catch posts the generic failure message. -/
def recoveringWorld : World := { brokenWorld with createCommentErr := none }

/-- The Command Interpreter front end used to compare two comments: the
`COMMAND_REGEX` match followed by `validateScheduleTime` on its captures
(`none` when the comment is not recognized as a schedule command). -/
def interpretCommand (env : Env) (body : String) : Option (Except String Int) :=
  (execCommand body.data).map (fun r => validateScheduleTime env r.1 (r.2.getD "UTC"))

/-- A concrete discovery environment for the witnesses. -/
def sampleDiscovery : DiscoveryEnv :=
  { listComments := fun _ _ n =>
      if n = 1 then
        .ok ["hello", "<!-- MERGE_SCHEDULE_INFO \x7b\"j\"\x7d -->\nrest"]
      else if n = 2 then .error "listing failed"
      else if n = 3 then .ok ["no marker here"]
      else if n = 4 then
        .ok ["<!-- MERGE_SCHEDULE_INFO not-json -->\ntail"]
      else if n = 5 then
        .ok ["<!-- MERGE_SCHEDULE_INFO \x7b\"bad\"\x7d -->\ntail"]
      else .ok []
    jsonParse := fun s =>
      if s = "\x7b\"j\"\x7d" then some (some "2024-01-05T00:00:00.000Z")
      else if s = "\x7b\"bad\"\x7d" then some (some "not-a-date")
      else none
    dateParse := fun s =>
      if s = "2024-01-05T00:00:00.000Z" then some 1704412800000 else none }

/-! ## Character facts -/

theorem isWhitespace_of_isDigit (c : Char) (h : c.isDigit = true) :
    c.isWhitespace = false := by
  simp only [Char.isDigit, Bool.and_eq_true, decide_eq_true_eq] at h
  simp only [Char.isWhitespace, Bool.or_eq_false_iff, decide_eq_false_iff_not]
  obtain ⟨h1, h2⟩ := h
  refine ⟨⟨⟨?_, ?_⟩, ?_⟩, ?_⟩ <;> rintro rfl <;> revert h1 h2 <;> decide

theorem toUpper_of_isDigit (c : Char) (h : c.isDigit = true) : c.toUpper = c := by
  simp only [Char.isDigit, Bool.and_eq_true, decide_eq_true_eq] at h
  obtain ⟨h1, h2⟩ := h
  have h2' : c.val.toNat ≤ (57 : UInt32).toNat := h2
  have h57 : (57 : UInt32).toNat = 57 := by decide
  rw [Char.toUpper]
  have hno : ¬ (c.toNat ≥ 97 ∧ c.toNat ≤ 122) := by
    rintro ⟨ha, _⟩
    rw [Char.toNat] at ha
    omega
  rw [if_neg hno]

theorem ne_colon_of_isDigit (c : Char) (h : c.isDigit = true) : ¬ (c = ':') := by
  simp only [Char.isDigit, Bool.and_eq_true, decide_eq_true_eq] at h
  obtain ⟨h1, h2⟩ := h
  rintro rfl
  revert h1 h2
  decide

theorem digitChar_isDigit (k : Nat) (hk : k ≤ 9) : (digitChar k).isDigit = true := by
  unfold digitChar
  interval_cases k <;> decide

theorem digitChar_isWhitespace (k : Nat) (hk : k ≤ 9) :
    (digitChar k).isWhitespace = false :=
  isWhitespace_of_isDigit _ (digitChar_isDigit k hk)

theorem digitChar_toUpper (k : Nat) (hk : k ≤ 9) : (digitChar k).toUpper = digitChar k :=
  toUpper_of_isDigit _ (digitChar_isDigit k hk)

theorem digitChar_ne_colon (k : Nat) (hk : k ≤ 9) : ¬ (digitChar k = ':') :=
  ne_colon_of_isDigit _ (digitChar_isDigit k hk)

theorem digitVal_digitChar (k : Nat) (hk : k ≤ 9) : digitVal (digitChar k) = k := by
  unfold digitVal digitChar
  interval_cases k <;> decide

/-! ## Facts about `words` -/

theorem wordsAux_mem (cs : List Char) :
    ∀ acc, (∀ c ∈ acc, c.isWhitespace = false) →
      ∀ t ∈ wordsAux acc cs, t ≠ [] ∧ ∀ c ∈ t, c.isWhitespace = false := by
  induction cs with
  | nil =>
    intro acc hacc t ht
    rw [wordsAux] at ht
    by_cases he : acc.isEmpty
    · rw [if_pos he] at ht
      simp at ht
    · rw [if_neg he] at ht
      rw [List.mem_singleton] at ht
      subst ht
      refine ⟨?_, ?_⟩
      · simp only [ne_eq, List.reverse_eq_nil_iff]
        exact fun h => he (by simp [h])
      · intro c hc
        exact hacc c (List.mem_reverse.mp hc)
  | cons c cs ih =>
    intro acc hacc t ht
    rw [wordsAux] at ht
    by_cases hw : c.isWhitespace
    · rw [if_pos hw] at ht
      by_cases he : acc.isEmpty
      · rw [if_pos he] at ht
        exact ih [] (by simp) t ht
      · rw [if_neg he] at ht
        rcases List.mem_cons.mp ht with rfl | ht'
        · refine ⟨?_, fun d hd => hacc d (List.mem_reverse.mp hd)⟩
          simp only [ne_eq, List.reverse_eq_nil_iff]
          exact fun h => he (by simp [h])
        · exact ih [] (by simp) t ht'
    · rw [if_neg hw] at ht
      refine ih (c :: acc) ?_ t ht
      intro d hd
      rcases List.mem_cons.mp hd with rfl | hd
      · exact Bool.of_not_eq_true hw
      · exact hacc d hd

theorem wordsAux_sep (d : List Char) (hd : ∀ c ∈ d, c.isWhitespace = false) :
    ∀ acc rest, (acc ≠ [] ∨ d ≠ []) →
      wordsAux acc (d ++ ' ' :: rest) = (acc.reverse ++ d) :: wordsAux [] rest := by
  induction d with
  | nil =>
    intro acc rest hne
    have hacc : acc ≠ [] := by tauto
    rw [List.nil_append, wordsAux]
    have hsp : (' ').isWhitespace = true := by decide
    rw [if_pos hsp]
    have hae : ¬ (acc.isEmpty = true) := by
      cases acc with
      | nil => exact absurd rfl hacc
      | cons _ _ => simp [List.isEmpty]
    rw [if_neg hae]
    simp
  | cons x d ih =>
    intro acc rest hne
    have hx : ¬ (x.isWhitespace = true) := by
      rw [hd x (List.mem_cons_self x d)]
      simp
    rw [List.cons_append, wordsAux, if_neg hx]
    rw [ih (fun c hc => hd c (List.mem_cons_of_mem x hc)) (x :: acc) rest (Or.inl (by simp))]
    simp

theorem wordsAux_last (t : List Char) (ht : ∀ c ∈ t, c.isWhitespace = false) :
    ∀ acc, (acc ≠ [] ∨ t ≠ []) → wordsAux acc t = [acc.reverse ++ t] := by
  induction t with
  | nil =>
    intro acc hne
    have hacc : acc ≠ [] := by tauto
    rw [wordsAux]
    have hae : ¬ (acc.isEmpty = true) := by
      cases acc with
      | nil => exact absurd rfl hacc
      | cons _ _ => simp [List.isEmpty]
    rw [if_neg hae]
    simp
  | cons x t ih =>
    intro acc hne
    have hx : ¬ (x.isWhitespace = true) := by
      rw [ht x (List.mem_cons_self x t)]
      simp
    rw [wordsAux, if_neg hx]
    rw [ih (fun c hc => ht c (List.mem_cons_of_mem x hc)) (x :: acc) (Or.inl (by simp))]
    simp

theorem words_pair (d t : List Char) (hdne : d ≠ [])
    (hd : ∀ c ∈ d, c.isWhitespace = false) (htne : t ≠ [])
    (ht : ∀ c ∈ t, c.isWhitespace = false) :
    words (d ++ ' ' :: t) = [d, t] := by
  unfold words
  rw [wordsAux_sep d hd [] t (Or.inr hdne)]
  rw [wordsAux_last t ht [] (Or.inr htne)]
  simp

/-! ## Facts about the formatted `HH:mm` string -/

theorem hmString_data (h m : Nat) :
    (hmString h m).data =
      [digitChar (h / 10), digitChar (h % 10), ':', digitChar (m / 10), digitChar (m % 10)] := by
  simp [hmString, pad2, String.data_append]

theorem hmString_noWs (h m : Nat) (hh : h ≤ 99) (hm99 : m ≤ 99) :
    ∀ c ∈ (hmString h m).data, c.isWhitespace = false := by
  rw [hmString_data]
  intro c hc
  have d1 : h / 10 ≤ 9 := by omega
  have d2 : h % 10 ≤ 9 := Nat.le_of_lt_succ (Nat.mod_lt h (by omega))
  have d3 : m / 10 ≤ 9 := by omega
  have d4 : m % 10 ≤ 9 := Nat.le_of_lt_succ (Nat.mod_lt m (by omega))
  simp only [List.mem_cons, List.not_mem_nil, or_false] at hc
  rcases hc with rfl | rfl | rfl | rfl | rfl
  · exact digitChar_isWhitespace _ d1
  · exact digitChar_isWhitespace _ d2
  · decide
  · exact digitChar_isWhitespace _ d3
  · exact digitChar_isWhitespace _ d4

theorem upper_hmString (h m : Nat) (hh : h ≤ 99) (hm99 : m ≤ 99) :
    upper (hmString h m).data = (hmString h m).data := by
  rw [hmString_data]
  have d1 : h / 10 ≤ 9 := by omega
  have d2 : h % 10 ≤ 9 := Nat.le_of_lt_succ (Nat.mod_lt h (by omega))
  have d3 : m / 10 ≤ 9 := by omega
  have d4 : m % 10 ≤ 9 := Nat.le_of_lt_succ (Nat.mod_lt m (by omega))
  have hc : (':').toUpper = ':' := by decide
  simp [upper, digitChar_toUpper _ d1, digitChar_toUpper _ d2,
    digitChar_toUpper _ d3, digitChar_toUpper _ d4, hc]

theorem matchTime_hmString (h m : Nat) (hh : h ≤ 99) (hm99 : m ≤ 99) :
    matchTime (hmString h m).data = some (h, m, none) := by
  rw [hmString_data]
  have d1 : h / 10 ≤ 9 := by omega
  have d2 : h % 10 ≤ 9 := Nat.le_of_lt_succ (Nat.mod_lt h (by omega))
  have d3 : m / 10 ≤ 9 := by omega
  have d4 : m % 10 ≤ 9 := Nat.le_of_lt_succ (Nat.mod_lt m (by omega))
  rw [matchTime]
  rw [if_neg (digitChar_ne_colon _ d2)]
  rw [if_pos rfl]
  rw [if_pos ⟨digitChar_isDigit _ d1, digitChar_isDigit _ d2,
    digitChar_isDigit _ d3, digitChar_isDigit _ d4⟩]
  simp only [meridiemOf, Option.map_some']
  rw [digitVal_digitChar _ d1, digitVal_digitChar _ d2,
    digitVal_digitChar _ d3, digitVal_digitChar _ d4]
  have e1 : 10 * (h / 10) + h % 10 = h := by omega
  have e2 : 10 * (m / 10) + m % 10 = m := by omega
  rw [e1, e2]

theorem stripWs_of_noWs (l : List Char) (h : ∀ c ∈ l, c.isWhitespace = false) :
    stripWs l = l := by
  unfold stripWs
  refine List.filter_eq_self.mpr ?_
  intro c hc
  simp [h c hc]

theorem to24_le (h : Nat) (isPM : Bool) (hle : h ≤ 12) : to24 h isPM ≤ 23 := by
  unfold to24
  by_cases hp : isPM = true ∧ h ≠ 12
  · rw [if_pos hp]
    obtain ⟨_, hne⟩ := hp
    omega
  · rw [if_neg hp]
    by_cases hq : ¬ isPM = true ∧ h = 12
    · rw [if_pos hq]
      omega
    · rw [if_neg hq]
      omega

theorem validateScheduleTime_error (env : Env) (s tz e : String)
    (h : validateScheduleTimeCore env s tz = .error e) :
    validateScheduleTime env s tz = .error ("Invalid date/time format: " ++ e) := by
  unfold validateScheduleTime
  rw [h]

theorem validateScheduleTime_ok (env : Env) (s tz : String) (d : Int)
    (h : validateScheduleTimeCore env s tz = .ok d) :
    validateScheduleTime env s tz = .ok d := by
  unfold validateScheduleTime
  rw [h]

theorem validateScheduleTimeCore_of_resolve (env : Env) (s tz : String) (d : Int)
    (h : resolveInstant env s tz = .ok d) :
    validateScheduleTimeCore env s tz =
      if d ≤ env.now then .error "Scheduled time must be in the future"
      else if env.now + thirtyDaysMs < d then
        .error "Cannot schedule more than 30 days in advance"
      else .ok d := by
  unfold validateScheduleTimeCore
  rw [h]

theorem validateScheduleTimeCore_of_wall_error (env : Env) (s tz e : String)
    (h : parseWallClock s = .error e) :
    validateScheduleTimeCore env s tz = .error e := by
  unfold validateScheduleTimeCore resolveInstant
  rw [h]

/-! ## The equivalence of the 12-hour and 24-hour forms -/

theorem parseWallClock_of_meridiem (dateStr : String) (datePart t : List Char)
    (ts : List (List Char)) (h m : Nat) (isPM : Bool)
    (hw : words dateStr.data = datePart :: t :: ts)
    (hmt : matchTime (upper (stripWs (joinSp (t :: ts)))) = some (h, m, some isPM))
    (h1 : 1 ≤ h) (h2 : h ≤ 12) (h3 : m ≤ 59) :
    parseWallClock dateStr = .ok (String.mk datePart ++ " " ++ hmString (to24 h isPM) m) ∧
    parseWallClock (String.mk datePart ++ " " ++ hmString (to24 h isPM) m)
      = .ok (String.mk datePart ++ " " ++ hmString (to24 h isPM) m) := by
  have hmem : datePart ∈ wordsAux [] dateStr.data := by
    have := hw
    unfold words at this
    rw [this]
    exact List.mem_cons_self _ _
  obtain ⟨hdne, hdw⟩ := wordsAux_mem dateStr.data [] (by simp) datePart hmem
  have hh99 : to24 h isPM ≤ 99 := le_trans (to24_le h isPM h2) (by omega)
  have hm99 : m ≤ 99 := by omega
  constructor
  · unfold parseWallClock
    rw [hw]
    simp only [hmt]
    rw [if_neg (by omega)]
  · unfold parseWallClock
    have hdata : (String.mk datePart ++ " " ++ hmString (to24 h isPM) m).data
        = datePart ++ ' ' :: (hmString (to24 h isPM) m).data := by
      simp [String.data_append]
    rw [hdata]
    have hmne : (hmString (to24 h isPM) m).data ≠ [] := by
      rw [hmString_data]
      simp
    rw [words_pair datePart _ hdne hdw hmne (hmString_noWs _ _ hh99 hm99)]
    have hnorm : upper (stripWs (joinSp [(hmString (to24 h isPM) m).data]))
        = (hmString (to24 h isPM) m).data := by
      have hj : joinSp [(hmString (to24 h isPM) m).data]
          = (hmString (to24 h isPM) m).data := rfl
      rw [hj, stripWs_of_noWs _ (hmString_noWs _ _ hh99 hm99),
        upper_hmString _ _ hh99 hm99]
    simp only [hnorm, matchTime_hmString _ _ hh99 hm99]
    rw [if_neg (by
      have := to24_le h isPM h2
      omega)]

/-- C1: for every valid 12-hour time input with a meridiem marker,
`validateScheduleTime` produces the same result as the corresponding
24-hour input for the same date token and timezone, where the
correspondence maps hour 12 AM to 0, keeps 12 PM at 12, adds 12 to every
other PM hour and leaves AM hours 1-11 unchanged. -/
theorem c1_twelve_hour_equivalence (env : Env) (tz dateStr : String)
    (datePart t : List Char) (ts : List (List Char)) (h m : Nat) (isPM : Bool)
    (hw : words dateStr.data = datePart :: t :: ts)
    (hmt : matchTime (upper (stripWs (joinSp (t :: ts)))) = some (h, m, some isPM))
    (h1 : 1 ≤ h) (h2 : h ≤ 12) (h3 : m ≤ 59) :
    validateScheduleTime env dateStr tz
      = validateScheduleTime env (String.mk datePart ++ " " ++ hmString (to24 h isPM) m) tz ∧
    to24 12 false = 0 ∧ to24 12 true = 12 ∧
    (h ≠ 12 → to24 h true = h + 12) ∧ (h ≠ 12 → to24 h false = h) := by
  obtain ⟨hL, hR⟩ :=
    parseWallClock_of_meridiem dateStr datePart t ts h m isPM hw hmt h1 h2 h3
  refine ⟨?_, by decide, by decide, ?_, ?_⟩
  · have hres : resolveInstant env dateStr tz
        = resolveInstant env (String.mk datePart ++ " " ++ hmString (to24 h isPM) m) tz := by
      unfold resolveInstant
      rw [hL, hR]
    unfold validateScheduleTime validateScheduleTimeCore
    rw [hres]
  · intro hne
    unfold to24
    rw [if_pos ⟨rfl, hne⟩]
  · intro hne
    unfold to24
    rw [if_neg (by simp), if_neg (by simp [hne])]

/-- Witness for C1: `"2024-01-02 02:30PM"` parses identically to
`"2024-01-02 14:30"` in the sample environment. -/
theorem c1_twelve_hour_equivalence_witness :
    validateScheduleTime sampleEnv "2024-01-02 02:30PM" "UTC"
      = validateScheduleTime sampleEnv
          (String.mk "2024-01-02".data ++ " " ++ hmString (to24 2 true) 30) "UTC" ∧
    to24 12 false = 0 ∧ to24 12 true = 12 ∧
    (2 ≠ 12 → to24 2 true = 2 + 12) ∧ (2 ≠ 12 → to24 2 false = 2) :=
  c1_twelve_hour_equivalence sampleEnv "UTC" "2024-01-02 02:30PM"
    "2024-01-02".data "02:30PM".data [] 2 30 true (by decide) (by decide)
    (by decide) (by decide) (by decide)

/-- C2: for every input whose resolution phase succeeds with instant `d`,
`validateScheduleTime` fails with the future-only reason exactly when
`d ≤ now`, fails with the 30-day-window reason exactly when
`d > now + 30 days`, and otherwise returns `d`. -/
theorem c2_window_enforcement (env : Env) (s tz : String) (d : Int)
    (hres : resolveInstant env s tz = .ok d) :
    (validateScheduleTime env s tz
        = .error "Invalid date/time format: Scheduled time must be in the future"
      ↔ d ≤ env.now) ∧
    (validateScheduleTime env s tz
        = .error "Invalid date/time format: Cannot schedule more than 30 days in advance"
      ↔ env.now + thirtyDaysMs < d) ∧
    (env.now < d → d ≤ env.now + thirtyDaysMs →
      validateScheduleTime env s tz = .ok d) := by
  have e1 : ("Invalid date/time format: " ++ "Scheduled time must be in the future" : String)
      = "Invalid date/time format: Scheduled time must be in the future" := by decide
  have e2 : ("Invalid date/time format: "
        ++ "Cannot schedule more than 30 days in advance" : String)
      = "Invalid date/time format: Cannot schedule more than 30 days in advance" := by decide
  have hne : ("Invalid date/time format: Scheduled time must be in the future" : String)
      ≠ "Invalid date/time format: Cannot schedule more than 30 days in advance" := by decide
  have hth : (0 : Int) < thirtyDaysMs := by decide
  have hcore := validateScheduleTimeCore_of_resolve env s tz d hres
  by_cases hpast : d ≤ env.now
  · rw [if_pos hpast] at hcore
    have hv := validateScheduleTime_error env s tz _ hcore
    rw [e1] at hv
    refine ⟨by simp [hv, hpast], ?_, ?_⟩
    · rw [hv]
      simp only [Except.error.injEq]
      constructor
      · intro hc
        exact absurd hc hne
      · intro hc
        exfalso
        omega
    · intro hlt
      exfalso
      omega
  · rw [if_neg hpast] at hcore
    by_cases hfar : env.now + thirtyDaysMs < d
    · rw [if_pos hfar] at hcore
      have hv := validateScheduleTime_error env s tz _ hcore
      rw [e2] at hv
      refine ⟨?_, by simp [hv, hfar], ?_⟩
      · rw [hv]
        simp only [Except.error.injEq]
        constructor
        · intro hc
          exact absurd hc.symm hne
        · intro hc
          exfalso
          omega
      · intro _ hle
        exfalso
        omega
    · rw [if_neg hfar] at hcore
      have hv := validateScheduleTime_ok env s tz d hcore
      refine ⟨?_, ?_, fun _ _ => hv⟩
      · rw [hv]
        simp [hpast]
      · rw [hv]
        simp [hfar]

/-- Witness for C2: `"2024-01-02 14:30"` resolves to `1704205800000` in the
sample environment, which is inside the window. -/
theorem c2_window_enforcement_witness :
    (validateScheduleTime sampleEnv "2024-01-02 14:30" "UTC"
        = .error "Invalid date/time format: Scheduled time must be in the future"
      ↔ (1704205800000 : Int) ≤ sampleEnv.now) ∧
    (validateScheduleTime sampleEnv "2024-01-02 14:30" "UTC"
        = .error "Invalid date/time format: Cannot schedule more than 30 days in advance"
      ↔ sampleEnv.now + thirtyDaysMs < 1704205800000) ∧
    (sampleEnv.now < 1704205800000 → (1704205800000 : Int) ≤ sampleEnv.now + thirtyDaysMs →
      validateScheduleTime sampleEnv "2024-01-02 14:30" "UTC" = .ok 1704205800000) :=
  c2_window_enforcement sampleEnv "2024-01-02 14:30" "UTC" 1704205800000 (by decide)

/-- C3: the parser rejects hour 13 with a meridiem, hour 25 without one and
minute 60 in either form, each with reason `"Invalid time format"`; a bare
date with no time token fails with `"Date and time must be provided"`; and
every failure message is `"Invalid date/time format: "` concatenated with
the specific reason. -/
theorem c3_format_rejections (env : Env) (tz : String) :
    validateScheduleTime env "2024-01-02 13:00PM" tz
      = .error "Invalid date/time format: Invalid time format" ∧
    validateScheduleTime env "2024-01-02 25:00" tz
      = .error "Invalid date/time format: Invalid time format" ∧
    validateScheduleTime env "2024-01-02 10:60" tz
      = .error "Invalid date/time format: Invalid time format" ∧
    validateScheduleTime env "2024-01-02 10:60PM" tz
      = .error "Invalid date/time format: Invalid time format" ∧
    validateScheduleTime env "2024-01-02" tz
      = .error "Invalid date/time format: Date and time must be provided" ∧
    (∀ s e, validateScheduleTime env s tz = .error e →
      ∃ r, e = "Invalid date/time format: " ++ r ∧
        validateScheduleTimeCore env s tz = .error r) := by
  have k1 : parseWallClock "2024-01-02 13:00PM" = .error "Invalid time format" := by decide
  have k2 : parseWallClock "2024-01-02 25:00" = .error "Invalid time format" := by decide
  have k3 : parseWallClock "2024-01-02 10:60" = .error "Invalid time format" := by decide
  have k4 : parseWallClock "2024-01-02 10:60PM" = .error "Invalid time format" := by decide
  have k5 : parseWallClock "2024-01-02" = .error "Date and time must be provided" := by decide
  have e1 : ("Invalid date/time format: " ++ "Invalid time format" : String)
      = "Invalid date/time format: Invalid time format" := by decide
  have e2 : ("Invalid date/time format: " ++ "Date and time must be provided" : String)
      = "Invalid date/time format: Date and time must be provided" := by decide
  refine ⟨?_, ?_, ?_, ?_, ?_, ?_⟩
  · rw [validateScheduleTime_error env _ tz _
      (validateScheduleTimeCore_of_wall_error env _ tz _ k1), e1]
  · rw [validateScheduleTime_error env _ tz _
      (validateScheduleTimeCore_of_wall_error env _ tz _ k2), e1]
  · rw [validateScheduleTime_error env _ tz _
      (validateScheduleTimeCore_of_wall_error env _ tz _ k3), e1]
  · rw [validateScheduleTime_error env _ tz _
      (validateScheduleTimeCore_of_wall_error env _ tz _ k4), e1]
  · rw [validateScheduleTime_error env _ tz _
      (validateScheduleTimeCore_of_wall_error env _ tz _ k5), e2]
  · intro s e he
    unfold validateScheduleTime at he
    cases hc : validateScheduleTimeCore env s tz with
    | error r =>
      rw [hc] at he
      exact ⟨r, by simpa using he.symm, rfl⟩
    | ok d =>
      rw [hc] at he
      exact absurd he (by simp)

/-- Witness for C3: the wrapped message of the hour-13 rejection decomposes
into the prefix and the specific reason in the sample environment. -/
theorem c3_format_rejections_witness :
    ∃ r, ("Invalid date/time format: Invalid time format" : String)
        = "Invalid date/time format: " ++ r ∧
      validateScheduleTimeCore sampleEnv "2024-01-02 13:00PM" "UTC" = .error r :=
  (c3_format_rejections sampleEnv "UTC").2.2.2.2.2 "2024-01-02 13:00PM"
    "Invalid date/time format: Invalid time format" (by decide)

/-! ## Substring facts -/

theorem hasSub_spec (hay pat : List Char) : hasSub hay pat = true ↔ pat <:+: hay := by
  induction hay with
  | nil =>
    rw [hasSub]
    simp [List.isEmpty_iff, List.infix_nil]
  | cons c t ih =>
    rw [hasSub, Bool.or_eq_true, List.infix_cons_iff, List.isPrefixOf_iff_prefix, ih]

theorem hasSub_of_isPrefixOf (hay pat : List Char) (h : pat <+: hay) :
    hasSub hay pat = true :=
  (hasSub_spec hay pat).mpr h.isInfix

/-! ## C4 and C5: the sweep loop -/

theorem sweepLoop_eq_filter (now : Int) (f : SchedPR → Except String Unit)
    (prs : List SchedPR) :
    sweepLoop now f prs = prs.filter (fun p => decide (p.scheduleTime ≤ now)) := by
  induction prs with
  | nil => rfl
  | cons p rest ih =>
    rw [sweepLoop]
    by_cases hd : p.scheduleTime ≤ now
    · rw [if_pos hd]
      cases f p <;> simp [ih, List.filter_cons, hd]
    · rw [if_neg hd]
      simp [ih, List.filter_cons, hd]

/-- C4: during a sweep, a merge is attempted for a listed candidate exactly
when `scheduleTime ≤ now` (an instant equal to `now` included); future
candidates are skipped.  In particular, with one PR an hour past and one an
hour in the future at `now = 2024-01-01T12:00:00Z`, exactly the past PR is
attempted. -/
theorem c4_due_iff_attempted (now : Int) (f : SchedPR → Except String Unit)
    (prs : List SchedPR) :
    processScheduledMerges (.ok prs) now f
      = .ok (prs.filter (fun p => decide (p.scheduleTime ≤ now))) ∧
    processScheduledMerges
        (.ok [{ owner := "owner", repo := "repo", number := 123,
                scheduleTime := 1704106800000 },
              { owner := "owner", repo := "repo", number := 124,
                scheduleTime := 1704114000000 }])
        1704110400000 f
      = .ok [{ owner := "owner", repo := "repo", number := 123,
               scheduleTime := 1704106800000 }] := by
  constructor
  · show Except.ok (sweepLoop now f prs) = _
    rw [sweepLoop_eq_filter]
  · show Except.ok (sweepLoop 1704110400000 f _) = _
    rw [sweepLoop_eq_filter]
    rfl

/-- C5: a failing merge is contained: the attempted candidates do not depend
on the merge outcomes, the sweep always resolves when the listing succeeded,
and the sweep re-throws exactly the listing failure. -/
theorem c5_failure_isolation (now : Int) (f g : SchedPR → Except String Unit)
    (prs : List SchedPR) (e : String) :
    processScheduledMerges (.ok prs) now f = processScheduledMerges (.ok prs) now g ∧
    (∃ l, processScheduledMerges (.ok prs) now f = .ok l) ∧
    processScheduledMerges (.error e) now f = .error e := by
  refine ⟨?_, ⟨sweepLoop now f prs, rfl⟩, rfl⟩
  show Except.ok (sweepLoop now f prs) = Except.ok (sweepLoop now g prs)
  rw [sweepLoop_eq_filter, sweepLoop_eq_filter]

/-! ## C10: the double post in `mergePR` -/

/-- C10: a failure at the mergeability-fetch stage (`pulls.get` reports 404,
or the PR is fetched but not mergeable) posts the `"❌ Failed to merge PR:"`
comment twice — once at detection and once in the outer catch, because the
thrown message does not contain `'Failed to merge PR'` — while a failure of
the merge call itself is posted exactly once. -/
theorem c10_double_post (mrg : Except (Option Nat × String) Unit)
    (cln : Except String Unit) (msg : String) (status : Option Nat) (msg2 : String) :
    mergePR { pullGet := .ok false, pullMerge := mrg, removeInfoRes := cln }
      = (["❌ Failed to merge PR: PR is not mergeable. There might be conflicts.",
          "❌ Failed to merge PR: PR is not mergeable. There might be conflicts."],
         .error "PR is not mergeable. There might be conflicts.") ∧
    mergePR { pullGet := .error (some 404, msg), pullMerge := mrg, removeInfoRes := cln }
      = (["❌ Failed to merge PR: PR not found or you may not have permission to merge.",
          "❌ Failed to merge PR: PR not found or you may not have permission to merge."],
         .error "PR not found or you may not have permission to merge.") ∧
    (∃ em, mergePR (MergeWorld.mk (.ok true) (.error (status, msg2)) (.ok ()))
        = (["❌ " ++ em], .error em) ∧
      hasSub em.data "Failed to merge PR".data = true) := by
  have hpre : ∀ x : String,
      hasSub ("Failed to merge PR: " ++ x).data "Failed to merge PR".data = true := by
    intro x
    apply hasSub_of_isPrefixOf
    rw [String.data_append]
    have hd : ("Failed to merge PR: ").data
        = "Failed to merge PR".data ++ ": ".data := by decide
    rw [hd, List.append_assoc]
    exact List.prefix_append _ _
  refine ⟨rfl, rfl, ?_⟩
  refine ⟨"Failed to merge PR: " ++
    (if status = some 405 then
      "PR is not mergeable at this time. Please resolve any conflicts or check branch protection rules."
     else if status = some 404 then
      "PR not found or you may not have permission to merge."
     else if msg2.isEmpty then "An unexpected error occurred." else msg2), ?_, hpre _⟩
  have h4 : mergePR (MergeWorld.mk (.ok true) (.error (status, msg2)) (.ok ()))
      = (if hasSub ("Failed to merge PR: " ++
          (if status = some 405 then
            "PR is not mergeable at this time. Please resolve any conflicts or check branch protection rules."
           else if status = some 404 then
            "PR not found or you may not have permission to merge."
           else if msg2.isEmpty then "An unexpected error occurred." else msg2)).data
          "Failed to merge PR".data then
         (["❌ " ++ ("Failed to merge PR: " ++
            (if status = some 405 then
              "PR is not mergeable at this time. Please resolve any conflicts or check branch protection rules."
             else if status = some 404 then
              "PR not found or you may not have permission to merge."
             else if msg2.isEmpty then "An unexpected error occurred." else msg2))],
          .error ("Failed to merge PR: " ++
            (if status = some 405 then
              "PR is not mergeable at this time. Please resolve any conflicts or check branch protection rules."
             else if status = some 404 then
              "PR not found or you may not have permission to merge."
             else if msg2.isEmpty then "An unexpected error occurred." else msg2)))
       else
         (["❌ " ++ ("Failed to merge PR: " ++
            (if status = some 405 then
              "PR is not mergeable at this time. Please resolve any conflicts or check branch protection rules."
             else if status = some 404 then
              "PR not found or you may not have permission to merge."
             else if msg2.isEmpty then "An unexpected error occurred." else msg2))] ++
          ["❌ Failed to merge PR: " ++ ("Failed to merge PR: " ++
            (if status = some 405 then
              "PR is not mergeable at this time. Please resolve any conflicts or check branch protection rules."
             else if status = some 404 then
              "PR not found or you may not have permission to merge."
             else if msg2.isEmpty then "An unexpected error occurred." else msg2))],
          .error ("Failed to merge PR: " ++
            (if status = some 405 then
              "PR is not mergeable at this time. Please resolve any conflicts or check branch protection rules."
             else if status = some 404 then
              "PR not found or you may not have permission to merge."
             else if msg2.isEmpty then "An unexpected error occurred." else msg2)))) := rfl
  rw [h4, if_pos (hpre _)]

/-! ## C6: discovery skips malformed items without throwing -/

theorem discoveryLoop_eq_filterMap (env : DiscoveryEnv) (items : List SearchItem) :
    discoveryLoop env items = items.filterMap (itemStep env) := by
  induction items with
  | nil => rfl
  | cons item rest ih =>
    rw [discoveryLoop, List.filterMap_cons]
    cases itemStep env item <;> simp [ih]

/-- C6: `getScheduledPRs` maps each search item independently through the
per-item pipeline (so one skipped PR never aborts the rest, and the listing
only throws when the search itself failed), and each malformed shape —
missing repository reference, malformed repository URL, failed comment
listing, no marker comment, unparsable marker payload, non-string or
invalid embedded date — yields `none`, omitting that PR from the result. -/
theorem c6_discovery_skips (env : DiscoveryEnv) (items : List SearchItem) :
    getScheduledPRs env (.ok items) = .ok (items.filterMap (itemStep env)) ∧
    (∀ item, item.repoUrl = none → itemStep env item = none) ∧
    (∀ item url, item.repoUrl = some url → (splitSlash url.data).length < 2 →
      itemStep env item = none) ∧
    (∀ item e, itemTry env item = .error e → itemStep env item = none) ∧
    (∀ item url repo owner rest bodies, item.repoUrl = some url →
      url.data.isEmpty = false →
      ¬ (splitSlash url.data).length < 2 →
      (splitSlash url.data).reverse = repo :: owner :: rest →
      env.listComments (String.mk owner) (String.mk repo) item.number = .ok bodies →
      bodies.find? (fun b => hasSub b.data MARKER.data) = none →
      itemStep env item = none) ∧
    (∀ o r n body, extractPayload body.data = none → markerTry env o r n body = none) ∧
    (∀ o r n body payload, extractPayload body.data = some payload →
      env.jsonParse (String.mk payload) = none → markerTry env o r n body = none) ∧
    (∀ o r n body payload, extractPayload body.data = some payload →
      env.jsonParse (String.mk payload) = some none → markerTry env o r n body = none) ∧
    (∀ o r n body payload s, extractPayload body.data = some payload →
      env.jsonParse (String.mk payload) = some (some s) → env.dateParse s = none →
      markerTry env o r n body = none) ∧
    (∀ e, getScheduledPRs env (.error e) = .error e) := by
  refine ⟨?_, ?_, ?_, ?_, ?_, ?_, ?_, ?_, ?_, fun _ => rfl⟩
  · show Except.ok (discoveryLoop env items) = _
    rw [discoveryLoop_eq_filterMap]
  · intro item h
    unfold itemStep itemTry
    rw [h]
  · intro item url hu hlen
    unfold itemStep itemTry
    rw [hu]
    by_cases he : url.data.isEmpty
    · simp [he]
    · simp [he, hlen]
  · intro item e h
    unfold itemStep
    rw [h]
  · intro item url repo owner rest bodies hu he hlen hrev hlc hfind
    unfold itemStep itemTry
    rw [hu]
    simp only [he, Bool.false_eq_true, if_false, if_neg hlen, hrev, hlc, hfind]
  · intro o r n body h
    unfold markerTry
    rw [h]
  · intro o r n body payload h1 h2
    unfold markerTry
    rw [h1]
    simp only [h2]
  · intro o r n body payload h1 h2
    unfold markerTry
    rw [h1]
    simp only [h2]
  · intro o r n body payload s h1 h2 h3
    unfold markerTry
    rw [h1]
    simp only [h2, h3]

/-- Witness for C6: the sample discovery environment over seven items —
one good, one with a failing comment listing, one with no repository
reference, one with a slash-free repository URL, one with an unparsable
payload, one with an invalid embedded date and one with no marker comment —
keeps exactly the good item. -/
theorem c6_discovery_skips_witness :
    getScheduledPRs sampleDiscovery
        (.ok [{ number := 1, repoUrl := some "https://api.github.com/repos/oo/rr" },
              { number := 2, repoUrl := some "a/b" },
              { number := 6, repoUrl := none },
              { number := 7, repoUrl := some "nopath" },
              { number := 4, repoUrl := some "x/y" },
              { number := 5, repoUrl := some "x/y" },
              { number := 3, repoUrl := some "x/y" }])
      = .ok ([{ number := 1, repoUrl := some "https://api.github.com/repos/oo/rr" },
              { number := 2, repoUrl := some "a/b" },
              { number := 6, repoUrl := none },
              { number := 7, repoUrl := some "nopath" },
              { number := 4, repoUrl := some "x/y" },
              { number := 5, repoUrl := some "x/y" },
              { number := 3, repoUrl := some "x/y" }].filterMap
                (itemStep sampleDiscovery)) ∧
    itemStep sampleDiscovery { number := 6, repoUrl := none } = none ∧
    itemStep sampleDiscovery { number := 2, repoUrl := some "a/b" } = none := by
  have h := c6_discovery_skips sampleDiscovery
    [{ number := 1, repoUrl := some "https://api.github.com/repos/oo/rr" },
     { number := 2, repoUrl := some "a/b" },
     { number := 6, repoUrl := none },
     { number := 7, repoUrl := some "nopath" },
     { number := 4, repoUrl := some "x/y" },
     { number := 5, repoUrl := some "x/y" },
     { number := 3, repoUrl := some "x/y" }]
  exact ⟨h.1, h.2.1 _ rfl,
    h.2.2.2.1 { number := 2, repoUrl := some "a/b" } "listing failed" (by decide)⟩

/-! ## C9: `handleComment` and thrown errors -/

/-- C9 counterexample: when the host's comment-creation call fails, the
outer catch of `handleComment` cannot post its generic message and the
rejection propagates to the caller, so `handleComment` does throw outward
for this combination of host outcomes. -/
theorem c9_posting_failure_throws :
    handleComment brokenWorld "@merge-at 2024-01-02 14:30"
      = .error ({ comments := [], labels := [], nextId := 0 }, "comment API down") := by
  decide

/-- C9 amended: provided every comment-creation call succeeds,
`handleComment` never throws outward — every failure inside the handler
body ends with the generic failure comment posted to the PR instead. -/
theorem c9_no_throw_amended (w : World) (body : String)
    (h : w.createCommentErr = none) :
    (∃ st, handleComment w body = .ok st) ∧
    (∀ st m, handleCommentBody w body = .error (st, m) →
      handleComment w body = .ok
        { st with
          comments := st.comments ++ [{ id := st.nextId, body := GENERIC_ERROR }],
          nextId := st.nextId + 1 }) := by
  unfold handleComment
  cases hb : handleCommentBody w body with
  | ok st =>
    refine ⟨⟨st, rfl⟩, ?_⟩
    intro st' m' h'
    exact Except.noConfusion h'
  | error e =>
    obtain ⟨st, m⟩ := e
    have hc : createComment w st GENERIC_ERROR
        = .ok { st with
            comments := st.comments ++ [{ id := st.nextId, body := GENERIC_ERROR }],
            nextId := st.nextId + 1 } := by
      unfold createComment
      rw [h]
    refine ⟨⟨_, hc⟩, ?_⟩
    intro st' m' h'
    simp only [Except.error.injEq, Prod.mk.injEq] at h'
    obtain ⟨rfl, rfl⟩ := h'
    exact hc

/-- Witness for C9 amended: in `recoveringWorld` the author lookup fails,
yet `handleComment` resolves, posting the generic failure comment. -/
theorem c9_no_throw_amended_witness :
    (∃ st, handleComment recoveringWorld "hello" = .ok st) ∧
    (∀ st m, handleCommentBody recoveringWorld "hello" = .error (st, m) →
      handleComment recoveringWorld "hello" = .ok
        { st with
          comments := st.comments ++ [{ id := st.nextId, body := GENERIC_ERROR }],
          nextId := st.nextId + 1 }) :=
  c9_no_throw_amended recoveringWorld "hello" rfl

/-! ## C7: at most one schedule per PR -/

theorem deleteComments_all (w : World) (hdel : w.deleteCommentErr = none) :
    ∀ (ids : List Nat) (st : PRState),
      ∃ st', deleteComments w st ids = .ok st' ∧
        st'.labels = st.labels ∧ st'.nextId = st.nextId ∧
        ∀ c ∈ st'.comments, c ∈ st.comments ∧ c.id ∉ ids := by
  intro ids
  induction ids with
  | nil =>
    intro st
    exact ⟨st, rfl, rfl, rfl, fun c hc => ⟨hc, by simp⟩⟩
  | cons i rest ih =>
    intro st
    obtain ⟨st', h1, h2, h3, h4⟩ :=
      ih { st with comments := st.comments.filter (fun c => c.id ≠ i) }
    refine ⟨st', ?_, h2, h3, ?_⟩
    · rw [deleteComments, hdel]
      exact h1
    · intro c hc
      obtain ⟨hmem, hnotin⟩ := h4 c hc
      rw [List.mem_filter] at hmem
      obtain ⟨hm, hid⟩ := hmem
      refine ⟨hm, ?_⟩
      simp only [List.mem_cons]
      rintro (h | h)
      · exact absurd h (by simpa using hid)
      · exact hnotin h

theorem removeScheduleInfo_clean (w : World) (st : PRState)
    (hreml : ∀ m, w.removeLabelRes ≠ .fail m)
    (hlist : w.listCommentsErr = none)
    (hdel : w.deleteCommentErr = none) :
    ∃ st', removeScheduleInfo w st = .ok st' ∧
      st'.labels = st.labels.filter (fun l => l ≠ SCHEDULE_LABEL) ∧
      st'.nextId = st.nextId ∧
      st'.comments.filter markerOf = [] := by
  obtain ⟨st', h1, h2, h3, h4⟩ := deleteComments_all w hdel
    (({ st with labels := st.labels.filter (fun l => l ≠ SCHEDULE_LABEL)
        : PRState }.comments.filter markerOf).map (fun c => c.id))
    { st with labels := st.labels.filter (fun l => l ≠ SCHEDULE_LABEL) }
  refine ⟨st', ?_, by rw [h2], by rw [h3], ?_⟩
  · cases hr : w.removeLabelRes with
    | fail m => exact absurd hr (hreml m)
    | ok =>
      unfold removeScheduleInfo
      rw [hr, hlist]
      exact h1
    | notFound =>
      unfold removeScheduleInfo
      rw [hr, hlist]
      exact h1
  · rw [List.filter_eq_nil_iff]
    intro c hc hmark
    obtain ⟨hmem, hnotin⟩ := h4 c hc
    apply hnotin
    rw [List.mem_map]
    exact ⟨c, List.mem_filter.mpr ⟨hmem, hmark⟩, rfl⟩

theorem storeScheduleInfo_one (w : World) (st : PRState) (d : Int) (lt ut tz : String)
    (haddl : w.addLabelErr = none) (hcreate : w.createCommentErr = none)
    (hlab : SCHEDULE_LABEL ∉ st.labels) :
    storeScheduleInfo w st d lt ut tz = .ok
      { comments := st.comments ++
          [{ id := st.nextId, body := markerBody (w.env.isoOf d) lt ut tz }],
        labels := st.labels ++ [SCHEDULE_LABEL],
        nextId := st.nextId + 1 } := by
  unfold storeScheduleInfo createComment
  rw [haddl, hcreate, if_neg hlab]

theorem markerBody_hasMarker (n : Nat) (iso lt ut tz : String) :
    markerOf { id := n, body := markerBody iso lt ut tz } = true := by
  unfold markerOf markerBody
  rw [hasSub_spec]
  have h1 : MARKER.data <:+:
      ("<!-- MERGE_SCHEDULE_INFO \x7b\"type\":\"merge-schedule-info\",\"scheduleDate\":\"").data := by
    rw [← hasSub_spec]
    decide
  simp only [String.data_append, List.append_assoc]
  exact h1.trans ((List.prefix_append _ _).isInfix)

/-- C7: processing a valid schedule command from an authorized author, in a
world where the host operations succeed, first removes all prior schedule
state and then writes the new one, so however many marker comments and
labels the PR carried before, afterwards exactly one marker comment and
exactly one schedule label are present. -/
theorem c7_at_most_one_schedule (w : World) (body dt : String) (tzo : Option String)
    (d : Int)
    (hauthor : ∃ a, w.author = .ok a)
    (hperm : hasWritePermission w = true)
    (hcancel : hasSub body.data CANCEL_COMMAND.data = false)
    (hcmd : execCommand body.data = some (dt, tzo))
    (hparse : validateScheduleTime w.env dt (tzo.getD "UTC") = .ok d)
    (haddl : w.addLabelErr = none)
    (hreml : ∀ m, w.removeLabelRes ≠ .fail m)
    (hlist : w.listCommentsErr = none)
    (hdel : w.deleteCommentErr = none)
    (hcreate : w.createCommentErr = none) :
    ∃ st, handleComment w body = .ok st ∧
      (st.comments.filter markerOf).length = 1 ∧
      st.labels.count SCHEDULE_LABEL = 1 := by
  obtain ⟨a, ha⟩ := hauthor
  obtain ⟨st1, hrem, hlab1, hnext1, hclean⟩ :=
    removeScheduleInfo_clean w w.pr hreml hlist hdel
  have hnotin : SCHEDULE_LABEL ∉ st1.labels := by
    rw [hlab1]
    intro hmem
    rw [List.mem_filter] at hmem
    simp at hmem
  have hstore := storeScheduleInfo_one w st1 d (w.env.fmtLocal d (tzo.getD "UTC"))
    (w.env.fmtUtc d) (tzo.getD "UTC") haddl hcreate hnotin
  have hbody : handleCommentBody w body = .ok
      { comments := st1.comments ++
          [{ id := st1.nextId,
             body := markerBody (w.env.isoOf d) (w.env.fmtLocal d (tzo.getD "UTC"))
               (w.env.fmtUtc d) (tzo.getD "UTC") }],
        labels := st1.labels ++ [SCHEDULE_LABEL],
        nextId := st1.nextId + 1 } := by
    unfold handleCommentBody
    rw [ha]
    simp only [hperm, Bool.not_true, Bool.false_eq_true, if_false, hcancel, hcmd,
      hparse, hrem, hstore]
  have hhc : handleComment w body = .ok
      { comments := st1.comments ++
          [{ id := st1.nextId,
             body := markerBody (w.env.isoOf d) (w.env.fmtLocal d (tzo.getD "UTC"))
               (w.env.fmtUtc d) (tzo.getD "UTC") }],
        labels := st1.labels ++ [SCHEDULE_LABEL],
        nextId := st1.nextId + 1 } := by
    unfold handleComment
    rw [hbody]
  refine ⟨_, hhc, ?_, ?_⟩
  · simp only [List.filter_append, hclean, List.nil_append]
    simp [markerBody_hasMarker]
  · rw [List.count_append, List.count_eq_zero.mpr hnotin]
    simp [SCHEDULE_LABEL]

/-- Witness for C7: in `sampleWorld` (two stale marker comments, the label
already present, an unrelated comment) the command
`@merge-at 2024-01-02 14:30` leaves exactly one marker comment and one
schedule label. -/
theorem c7_at_most_one_schedule_witness :
    ∃ st, handleComment sampleWorld "@merge-at 2024-01-02 14:30" = .ok st ∧
      (st.comments.filter markerOf).length = 1 ∧
      st.labels.count SCHEDULE_LABEL = 1 :=
  c7_at_most_one_schedule sampleWorld "@merge-at 2024-01-02 14:30"
    "2024-01-02 14:30" none 1704205800000 ⟨"alice", rfl⟩ rfl (by decide)
    (by decide) (by decide) rfl (by intro m h; cases h) rfl rfl rfl

/-! ## C8: case sensitivity of the meridiem in `COMMAND_REGEX` -/

/-- C8 counterexample: the comment `@merge-at 2024-01-02 2:30Pm` is matched
by `COMMAND_REGEX`, but the mixed-case `Pm` is captured as the timezone
token instead of the meridiem, so in the sample environment it fails with
`"Invalid date format"` while the upper-case form schedules successfully:
the two comments do not parse identically. -/
theorem c8_mixed_case_counterexample :
    execCommand "@merge-at 2024-01-02 2:30Pm".data
        = some ("2024-01-02 2:30", some "Pm") ∧
    execCommand "@merge-at 2024-01-02 2:30PM".data
        = some ("2024-01-02 2:30PM", none) ∧
    interpretCommand sampleEnv "@merge-at 2024-01-02 2:30Pm"
        = some (.error "Invalid date/time format: Invalid date format") ∧
    interpretCommand sampleEnv "@merge-at 2024-01-02 2:30PM"
        = some (.ok 1704205800000) ∧
    interpretCommand sampleEnv "@merge-at 2024-01-02 2:30Pm"
      ≠ interpretCommand sampleEnv "@merge-at 2024-01-02 2:30PM" := by
  refine ⟨by decide, by decide, by decide, by decide, by decide⟩

/-! ## C8 amended: uniform-case meridiems are recognized and parse alike -/

theorem litP_self (p r : List Char) : litP p (p ++ r) = some r := by
  induction p with
  | nil => rfl
  | cons c cs ih => simp [litP, ih]

theorem wsPlus_space (c : Char) (rest : List Char) (hc : c.isWhitespace = false) :
    wsPlus (' ' :: c :: rest) = some ([' '], c :: rest) := by
  have hsp : (' ').isWhitespace = true := by decide
  simp [wsPlus, hsp, List.takeWhile_cons, List.dropWhile_cons, hc]

theorem digitN_four (a b c d : Char) (r : List Char) (ha : a.isDigit = true)
    (hb : b.isDigit = true) (hc : c.isDigit = true) (hd : d.isDigit = true) :
    digitN 4 (a :: b :: c :: d :: r) = some ([a, b, c, d], r) := by
  simp [digitN, ha, hb, hc, hd]

theorem digitN_two (a b : Char) (r : List Char) (ha : a.isDigit = true)
    (hb : b.isDigit = true) :
    digitN 2 (a :: b :: r) = some ([a, b], r) := by
  simp [digitN, ha, hb]

theorem hourColon_one (c1 m1 m2 : Char) (rest : List Char) (h1 : c1.isDigit = true) :
    hourColon (c1 :: ':' :: m1 :: m2 :: rest) = some ([c1], m1 :: m2 :: rest) := by
  have hcolon : (':').isDigit = false := by decide
  simp [hourColon, h1, hcolon]

theorem hourColon_two (c1 c2 m1 m2 : Char) (rest : List Char) (h1 : c1.isDigit = true)
    (h2 : c2.isDigit = true) :
    hourColon (c1 :: c2 :: ':' :: m1 :: m2 :: rest) = some ([c1, c2], m1 :: m2 :: rest) := by
  simp [hourColon, h1, h2]

theorem execCommand_of_matchAt (c : Char) (cs : List Char) (r : String × Option String)
    (h : matchAt (c :: cs) = some r) : execCommand (c :: cs) = some r := by
  rw [execCommand, h]

/-- The date shape `YYYY-MM-DD` of the amended C8 statement. -/
def dateShape (y1 y2 y3 y4 n1 n2 d1 d2 : Char) : List Char :=
  [y1, y2, y3, y4, '-', n1, n2, '-', d1, d2]

/-- The uniform-case meridiem spellings accepted by `COMMAND_REGEX`. -/
def meridiemSpellings : List (List Char) := [['A', 'M'], ['P', 'M'], ['a', 'm'], ['p', 'm']]

theorem matchAt_schedule (y1 y2 y3 y4 n1 n2 d1 d2 m1 m2 : Char) (hh mer : List Char)
    (hy1 : y1.isDigit = true) (hy2 : y2.isDigit = true)
    (hy3 : y3.isDigit = true) (hy4 : y4.isDigit = true)
    (hn1 : n1.isDigit = true) (hn2 : n2.isDigit = true)
    (hd1 : d1.isDigit = true) (hd2 : d2.isDigit = true)
    (hm1 : m1.isDigit = true) (hm2 : m2.isDigit = true)
    (hhh : (∃ c1, hh = [c1] ∧ c1.isDigit = true) ∨
           (∃ c1 c2, hh = [c1, c2] ∧ c1.isDigit = true ∧ c2.isDigit = true))
    (hmer : mer ∈ meridiemSpellings) :
    matchAt (atMergeAt ++ ' ' :: (dateShape y1 y2 y3 y4 n1 n2 d1 d2 ++ ' ' ::
        (hh ++ ':' :: m1 :: m2 :: mer)))
      = some (String.mk (dateShape y1 y2 y3 y4 n1 n2 d1 d2 ++ ' ' ::
          (hh ++ ':' :: m1 :: m2 :: mer)), none) := by
  have hlit := litP_self atMergeAt (' ' :: (dateShape y1 y2 y3 y4 n1 n2 d1 d2 ++ ' ' ::
    (hh ++ ':' :: m1 :: m2 :: mer)))
  have hws1 : wsPlus (' ' :: (dateShape y1 y2 y3 y4 n1 n2 d1 d2 ++ ' ' ::
      (hh ++ ':' :: m1 :: m2 :: mer)))
      = some ([' '], dateShape y1 y2 y3 y4 n1 n2 d1 d2 ++ ' ' ::
          (hh ++ ':' :: m1 :: m2 :: mer)) := by
    rw [show dateShape y1 y2 y3 y4 n1 n2 d1 d2 ++ ' ' :: (hh ++ ':' :: m1 :: m2 :: mer)
        = y1 :: ([y2, y3, y4, '-', n1, n2, '-', d1, d2] ++ ' ' ::
          (hh ++ ':' :: m1 :: m2 :: mer)) from rfl]
    exact wsPlus_space y1 _ (isWhitespace_of_isDigit y1 hy1)
  have hmerGroup : merGroup mer = (mer, []) := by
    simp only [meridiemSpellings, List.mem_cons, List.not_mem_nil, or_false] at hmer
    rcases hmer with rfl | rfl | rfl | rfl <;> rfl
  have hhead : ∃ c0 rest0, hh ++ ':' :: m1 :: m2 :: mer = c0 :: rest0 ∧ c0.isDigit = true := by
    rcases hhh with ⟨c1, rfl, hc1⟩ | ⟨c1, c2, rfl, hc1, _⟩
    · exact ⟨c1, _, rfl, hc1⟩
    · exact ⟨c1, _, rfl, hc1⟩
  obtain ⟨c0, rest0, hsplit, hc0⟩ := hhead
  have hws2 : wsPlus (' ' :: (hh ++ ':' :: m1 :: m2 :: mer))
      = some ([' '], hh ++ ':' :: m1 :: m2 :: mer) := by
    rw [hsplit]
    exact wsPlus_space c0 rest0 (isWhitespace_of_isDigit c0 hc0)
  have hhour : hourColon (hh ++ ':' :: m1 :: m2 :: mer) = some (hh, m1 :: m2 :: mer) := by
    rcases hhh with ⟨c1, rfl, hc1⟩ | ⟨c1, c2, rfl, hc1, hc2⟩
    · exact hourColon_one c1 m1 m2 mer hc1
    · exact hourColon_two c1 c2 m1 m2 mer hc1 hc2
  have hmin : digitN 2 (m1 :: m2 :: mer) = some ([m1, m2], mer) := digitN_two m1 m2 mer hm1 hm2
  have hd4 : digitN 4 (y1 :: y2 :: y3 :: y4 :: '-' :: n1 :: n2 :: '-' :: d1 :: d2 :: ' ' ::
      (hh ++ ':' :: m1 :: m2 :: mer))
      = some ([y1, y2, y3, y4], '-' :: n1 :: n2 :: '-' :: d1 :: d2 :: ' ' ::
          (hh ++ ':' :: m1 :: m2 :: mer)) :=
    digitN_four y1 y2 y3 y4 _ hy1 hy2 hy3 hy4
  have hmo : digitN 2 (n1 :: n2 :: '-' :: d1 :: d2 :: ' ' :: (hh ++ ':' :: m1 :: m2 :: mer))
      = some ([n1, n2], '-' :: d1 :: d2 :: ' ' :: (hh ++ ':' :: m1 :: m2 :: mer)) :=
    digitN_two n1 n2 _ hn1 hn2
  have hdd : digitN 2 (d1 :: d2 :: ' ' :: (hh ++ ':' :: m1 :: m2 :: mer))
      = some ([d1, d2], ' ' :: (hh ++ ':' :: m1 :: m2 :: mer)) :=
    digitN_two d1 d2 _ hd1 hd2
  have hlitd1 : litP ['-'] ('-' :: n1 :: n2 :: '-' :: d1 :: d2 :: ' ' ::
      (hh ++ ':' :: m1 :: m2 :: mer))
      = some (n1 :: n2 :: '-' :: d1 :: d2 :: ' ' :: (hh ++ ':' :: m1 :: m2 :: mer)) := by
    simp [litP]
  have hlitd2 : litP ['-'] ('-' :: d1 :: d2 :: ' ' :: (hh ++ ':' :: m1 :: m2 :: mer))
      = some (d1 :: d2 :: ' ' :: (hh ++ ':' :: m1 :: m2 :: mer)) := by
    simp [litP]
  unfold matchAt
  rw [hlit]
  simp only [Option.bind_eq_bind, Option.some_bind]
  rw [hws1]
  simp only [Option.some_bind, dateShape, List.cons_append, List.nil_append]
  rw [hd4]
  simp only [Option.some_bind]
  rw [hlitd1]
  simp only [Option.some_bind]
  rw [hmo]
  simp only [Option.some_bind]
  rw [hlitd2]
  simp only [Option.some_bind]
  rw [hdd]
  simp only [Option.some_bind]
  rw [hws2]
  simp only [Option.some_bind]
  rw [hhour]
  simp only [Option.some_bind]
  rw [hmin]
  simp only [Option.some_bind]
  rw [hmerGroup]
  simp [tzGroup, dateShape, List.append_assoc]

theorem parseWallClock_pair (dp t : List Char) (hdne : dp ≠ [])
    (hdw : ∀ c ∈ dp, c.isWhitespace = false) (htne : t ≠ [])
    (htw : ∀ c ∈ t, c.isWhitespace = false) :
    parseWallClock (String.mk (dp ++ ' ' :: t)) =
      (match matchTime (upper t) with
       | none => Except.error "Invalid time format"
       | some (h, m, some isPM) =>
         if h < 1 ∨ 12 < h ∨ 59 < m then Except.error "Invalid time format"
         else Except.ok (String.mk dp ++ " " ++ hmString (to24 h isPM) m)
       | some (h, m, none) =>
         if 23 < h ∨ 59 < m then Except.error "Invalid time format"
         else Except.ok (String.mk dp ++ " " ++ hmString h m)) := by
  unfold parseWallClock
  rw [show (String.mk (dp ++ ' ' :: t)).data = dp ++ ' ' :: t from rfl,
    words_pair dp t hdne hdw htne htw]
  have hnorm : upper (stripWs (joinSp (t :: []))) = upper t := by
    rw [show joinSp (t :: []) = t from rfl, stripWs_of_noWs t htw]
  simp only [hnorm]
  cases hmt : matchTime (upper t) with
  | none => rfl
  | some v =>
    obtain ⟨h, m, mer⟩ := v
    cases mer <;> rfl

theorem upper_time (hh : List Char) (m1 m2 : Char) (mer : List Char) :
    upper (hh ++ ':' :: m1 :: m2 :: mer)
      = upper hh ++ ':' :: m1.toUpper :: m2.toUpper :: upper mer := by
  have hc : (':').toUpper = ':' := by decide
  simp [upper, hc]

/-- C8 amended: the meridiem of a schedule command is recognized in the
uniform spellings `AM`, `PM`, `am`, `pm` (but not in mixed case): for every
comment of the form `@merge-at YYYY-MM-DD H:MM<meridiem>` with one of those
spellings, `COMMAND_REGEX` captures the whole date/time expression with no
timezone token, and each all-lowercase form parses identically to its
upper-case form. -/
theorem c8_uniform_case_meridiem (env : Env) (tz : String)
    (y1 y2 y3 y4 n1 n2 d1 d2 m1 m2 : Char) (hh : List Char)
    (hy1 : y1.isDigit = true) (hy2 : y2.isDigit = true)
    (hy3 : y3.isDigit = true) (hy4 : y4.isDigit = true)
    (hn1 : n1.isDigit = true) (hn2 : n2.isDigit = true)
    (hd1 : d1.isDigit = true) (hd2 : d2.isDigit = true)
    (hm1 : m1.isDigit = true) (hm2 : m2.isDigit = true)
    (hhh : (∃ c1, hh = [c1] ∧ c1.isDigit = true) ∨
           (∃ c1 c2, hh = [c1, c2] ∧ c1.isDigit = true ∧ c2.isDigit = true)) :
    (∀ mer ∈ meridiemSpellings,
      execCommand (atMergeAt ++ ' ' :: (dateShape y1 y2 y3 y4 n1 n2 d1 d2 ++ ' ' ::
          (hh ++ ':' :: m1 :: m2 :: mer)))
        = some (String.mk (dateShape y1 y2 y3 y4 n1 n2 d1 d2 ++ ' ' ::
            (hh ++ ':' :: m1 :: m2 :: mer)), none)) ∧
    validateScheduleTime env (String.mk (dateShape y1 y2 y3 y4 n1 n2 d1 d2 ++ ' ' ::
        (hh ++ ':' :: m1 :: m2 :: ['p', 'm']))) tz
      = validateScheduleTime env (String.mk (dateShape y1 y2 y3 y4 n1 n2 d1 d2 ++ ' ' ::
          (hh ++ ':' :: m1 :: m2 :: ['P', 'M']))) tz ∧
    validateScheduleTime env (String.mk (dateShape y1 y2 y3 y4 n1 n2 d1 d2 ++ ' ' ::
        (hh ++ ':' :: m1 :: m2 :: ['a', 'm']))) tz
      = validateScheduleTime env (String.mk (dateShape y1 y2 y3 y4 n1 n2 d1 d2 ++ ' ' ::
          (hh ++ ':' :: m1 :: m2 :: ['A', 'M']))) tz := by
  have hdne : dateShape y1 y2 y3 y4 n1 n2 d1 d2 ≠ [] := by simp [dateShape]
  have hdash : ('-').isWhitespace = false := by decide
  have hdw : ∀ c ∈ dateShape y1 y2 y3 y4 n1 n2 d1 d2, c.isWhitespace = false := by
    intro c hc
    simp only [dateShape, List.mem_cons, List.not_mem_nil, or_false] at hc
    rcases hc with rfl | rfl | rfl | rfl | rfl | rfl | rfl | rfl | rfl | rfl
    · exact isWhitespace_of_isDigit _ hy1
    · exact isWhitespace_of_isDigit _ hy2
    · exact isWhitespace_of_isDigit _ hy3
    · exact isWhitespace_of_isDigit _ hy4
    · exact hdash
    · exact isWhitespace_of_isDigit _ hn1
    · exact isWhitespace_of_isDigit _ hn2
    · exact hdash
    · exact isWhitespace_of_isDigit _ hd1
    · exact isWhitespace_of_isDigit _ hd2
  have hhw : ∀ c ∈ hh, c.isWhitespace = false := by
    intro c hc
    rcases hhh with ⟨c1, rfl, hc1⟩ | ⟨c1, c2, rfl, hc1, hc2⟩
    · simp only [List.mem_singleton] at hc
      subst hc
      exact isWhitespace_of_isDigit _ hc1
    · simp only [List.mem_cons, List.not_mem_nil, or_false] at hc
      rcases hc with rfl | rfl
      · exact isWhitespace_of_isDigit _ hc1
      · exact isWhitespace_of_isDigit _ hc2
  have htw : ∀ mer : List Char, (∀ c ∈ mer, c.isWhitespace = false) →
      ∀ c ∈ hh ++ ':' :: m1 :: m2 :: mer, c.isWhitespace = false := by
    intro mer hmw c hc
    rw [List.mem_append] at hc
    rcases hc with hc | hc
    · exact hhw c hc
    · simp only [List.mem_cons] at hc
      rcases hc with rfl | rfl | rfl | hc
      · decide
      · exact isWhitespace_of_isDigit _ hm1
      · exact isWhitespace_of_isDigit _ hm2
      · exact hmw c hc
  have htne : ∀ mer : List Char, hh ++ ':' :: m1 :: m2 :: mer ≠ [] := by
    intro mer h
    have := List.append_eq_nil.mp h
    exact absurd this.2 (by simp)
  have hueq : ∀ merL merU : List Char, upper merL = upper merU →
      parseWallClock (String.mk (dateShape y1 y2 y3 y4 n1 n2 d1 d2 ++ ' ' ::
        (hh ++ ':' :: m1 :: m2 :: merL)))
      = parseWallClock (String.mk (dateShape y1 y2 y3 y4 n1 n2 d1 d2 ++ ' ' ::
        (hh ++ ':' :: m1 :: m2 :: merU))) →
      validateScheduleTime env (String.mk (dateShape y1 y2 y3 y4 n1 n2 d1 d2 ++ ' ' ::
        (hh ++ ':' :: m1 :: m2 :: merL))) tz
      = validateScheduleTime env (String.mk (dateShape y1 y2 y3 y4 n1 n2 d1 d2 ++ ' ' ::
        (hh ++ ':' :: m1 :: m2 :: merU))) tz := by
    intro merL merU _ hpw
    have hres : resolveInstant env (String.mk (dateShape y1 y2 y3 y4 n1 n2 d1 d2 ++ ' ' ::
        (hh ++ ':' :: m1 :: m2 :: merL))) tz
        = resolveInstant env (String.mk (dateShape y1 y2 y3 y4 n1 n2 d1 d2 ++ ' ' ::
          (hh ++ ':' :: m1 :: m2 :: merU))) tz := by
      unfold resolveInstant
      rw [hpw]
    unfold validateScheduleTime validateScheduleTimeCore
    rw [hres]
  refine ⟨?_, ?_, ?_⟩
  · intro mer hmer
    exact execCommand_of_matchAt '@'
      (['m', 'e', 'r', 'g', 'e', '-', 'a', 't'] ++ ' ' ::
        (dateShape y1 y2 y3 y4 n1 n2 d1 d2 ++ ' ' :: (hh ++ ':' :: m1 :: m2 :: mer))) _
      (matchAt_schedule y1 y2 y3 y4 n1 n2 d1 d2 m1 m2 hh mer
        hy1 hy2 hy3 hy4 hn1 hn2 hd1 hd2 hm1 hm2 hhh hmer)
  · refine hueq ['p', 'm'] ['P', 'M'] (by decide) ?_
    rw [parseWallClock_pair _ _ hdne hdw (htne _) (htw _ (by decide)),
      parseWallClock_pair _ _ hdne hdw (htne _) (htw _ (by decide))]
    rw [upper_time, upper_time]
    rfl
  · refine hueq ['a', 'm'] ['A', 'M'] (by decide) ?_
    rw [parseWallClock_pair _ _ hdne hdw (htne _) (htw _ (by decide)),
      parseWallClock_pair _ _ hdne hdw (htne _) (htw _ (by decide))]
    rw [upper_time, upper_time]
    rfl

/-- Witness for C8 amended: `@merge-at 2024-01-02 2:30pm` is recognized
with its full date/time capture and parses identically to
`@merge-at 2024-01-02 2:30PM` in the sample environment. -/
theorem c8_uniform_case_meridiem_witness :
    (∀ mer ∈ meridiemSpellings,
      execCommand (atMergeAt ++ ' ' :: (dateShape '2' '0' '2' '4' '0' '1' '0' '2' ++ ' ' ::
          (['2'] ++ ':' :: '3' :: '0' :: mer)))
        = some (String.mk (dateShape '2' '0' '2' '4' '0' '1' '0' '2' ++ ' ' ::
            (['2'] ++ ':' :: '3' :: '0' :: mer)), none)) ∧
    validateScheduleTime sampleEnv (String.mk (dateShape '2' '0' '2' '4' '0' '1' '0' '2' ++ ' ' ::
        (['2'] ++ ':' :: '3' :: '0' :: ['p', 'm']))) "UTC"
      = validateScheduleTime sampleEnv (String.mk (dateShape '2' '0' '2' '4' '0' '1' '0' '2' ++ ' ' ::
          (['2'] ++ ':' :: '3' :: '0' :: ['P', 'M']))) "UTC" ∧
    validateScheduleTime sampleEnv (String.mk (dateShape '2' '0' '2' '4' '0' '1' '0' '2' ++ ' ' ::
        (['2'] ++ ':' :: '3' :: '0' :: ['a', 'm']))) "UTC"
      = validateScheduleTime sampleEnv (String.mk (dateShape '2' '0' '2' '4' '0' '1' '0' '2' ++ ' ' ::
          (['2'] ++ ':' :: '3' :: '0' :: ['A', 'M']))) "UTC" :=
  c8_uniform_case_meridiem sampleEnv "UTC" '2' '0' '2' '4' '0' '1' '0' '2' '3' '0' ['2']
    (by decide) (by decide) (by decide) (by decide) (by decide) (by decide) (by decide)
    (by decide) (by decide) (by decide) (Or.inl ⟨'2', rfl, by decide⟩)

end MergeSched
